import Mathlib

/-!
Verification of the ask-llm document-processing pipeline.

This file gives a shallow embedding, in Lean 4, of the parts of the
ask-llm source that the specification talks about:

* `src/ask_llm/document_processor.py` : the per-document query loop
  (`DocumentProcessor.process_document`) and its filter evaluation
  (`DocumentProcessor._evaluate_filter`);
* `src/ask_llm/config.py` : the parameter-inheritance logic of
  `ConfigManager.load_queries`;
* `src/ask_llm/pdf_search.py` : `PDFSearcher._download_pdf` and
  `PDFSearcher.cleanup_temp_files`;
* `src/ask_llm/pdf_finder.py` : `PDFFinder._verify_pdf_match`;
* the fallback search strategy and the resume ledger, which are invoked
  from `cli.py` but whose definitions are not in the source tree; those
  two are modelled from the specification text and are marked as such.

External effects (HTTP requests, file writes and removals, process exit)
are made explicit: fallible calls are modelled by outcome values chosen
by the environment, and side effects are collected in traces.
-/

namespace AskLLM

/-! ## JSON values

The shape of values produced by `json.loads` on a model response.  The
pipeline only ever inspects whether a response is a dict and whether a
named field of it is a boolean, so field values carry the full inductive
shape but no claim needs to recurse into them. -/

inductive JValue where
  | jNull
  | jBool (b : Bool)
  | jNum (q : ℚ)
  | jStr (s : String)
  | jArr (xs : List JValue)
  | jObj (fields : List (String × JValue))

/-- Python `response.get(field)` on a parsed JSON value: the named field of a
structured object, `none` for everything else (a non-object has no
fields). -/
def jGetField : JValue → String → Option JValue
  | JValue.jObj fields, k => List.lookup k fields
  | _, _ => none

/-! ## Query parameters -/

/-- A parameter value in the `params` bag of a query. -/
inductive PVal where
  | pBool (b : Bool)
  | pStr (s : String)
  | pNum (q : ℚ)
  | pInt (n : Int)
deriving DecidableEq

/-- Python truthiness of a parameter value, as used by
`query_info.params.get(key, False)` in a boolean context. -/
def PVal.truthy : PVal → Bool
  | PVal.pBool b => b
  | PVal.pStr s => !(s == "")
  | PVal.pNum q => !(q == 0)
  | PVal.pInt n => !(n == 0)

/-- A parameter bag: a Python dict keyed by strings (lookup finds the
entry for a key). -/
abbrev ParamBag := List (String × PVal)

/-- Python `params.get(key, False)` used in a boolean context. -/
def paramTruthy (params : ParamBag) (key : String) : Bool :=
  match List.lookup key params with
  | some v => v.truthy
  | none => false

/-- The `QueryConfig` model from `config.py`: prompt text, parameter bag, optional
response structure (JSON schema), optional filter field name. -/
structure QueryConfig where
  text : String
  params : ParamBag
  structure' : Option JValue
  filter_on : Option String

/-! ## Document processor state (`document_processor.py`)

`process_document` builds a `document_data` dict and iterates the query
list.  The embedding keeps the fields that the query loop mutates; the
sourcing fields (`file_path`, `pdf_source`, ...) are set before the loop
and only touched by the opportunistic-discovery block, which no claim
in this file inspects. -/

/-- One entry of `document_data["queries"]`. -/
structure QueryResult where
  query_id : Nat
  response : JValue
  grounding_metadata : Option JValue

/-- The loop-mutated part of `document_data`, plus the
`successful_queries` counter. -/
structure DocState where
  queries : List QueryResult
  successful_queries : Nat
  is_filtered_out : Bool
  filtered_at_query : Option Nat
  filter_reason : Option String

/-- The `document_data` dict as initialized before the query loop. -/
def initDocState : DocState :=
  { queries := [], successful_queries := 0, is_filtered_out := false,
    filtered_at_query := none, filter_reason := none }

/-- The outcome of one query attempt against the LLM gateway, as decided
by the environment: either some call in the `try` block raised
(`make_request`, logging, response extraction, opportunistic discovery),
or the request succeeded with raw text `raw`, with `parsed` the result
of `json.loads raw` (`none` on `JSONDecodeError`) and `grounding` the
grounding metadata. -/
inductive QueryOutcome where
  | exn
  | success (raw : String) (parsed : Option JValue) (grounding : Option JValue)

/-- Embeds `DocumentProcessor._evaluate_filter`: returns `none` for
`sys.exit(1)`, otherwise `some (continue?, updated document state)`.
A non-dict response filters the document out; a missing or non-boolean
field is a fatal error; a boolean `false` filters the document out;
a boolean `true` continues. -/
def evaluate_filter (response : JValue) (filter_field : String) (st : DocState)
    (query_id : Nat) : Option (Bool × DocState) :=
  match response with
  | JValue.jObj fields =>
    match List.lookup filter_field fields with
    | some (JValue.jBool b) =>
      if b then some (true, st)
      else some (false,
        { st with is_filtered_out := true, filtered_at_query := some query_id,
                  filter_reason := some ("Filter field " ++ filter_field
                    ++ " evaluated to False") })
    | _ => none
  | _ =>
    some (false,
      { st with is_filtered_out := true, filtered_at_query := some query_id,
                filter_reason := some ("No structured response for filter field "
                  ++ filter_field) })

/-- Result of one iteration of the query loop. -/
inductive StepResult where
  | cont (st : DocState)
  | stop (st : DocState)
  | exited

/-- One iteration of the query loop of `process_document` for the query
at 0-based position `i`: skip Semantic-Scholar queries; a raised
exception is caught and the loop continues; on success the response is
parsed (when a structure was requested), recorded, counted, and the
filter is evaluated when `filter_on` is declared. -/
def step_query (q : QueryConfig) (out : QueryOutcome) (i : Nat) (st : DocState) :
    StepResult :=
  if paramTruthy q.params "semantic_scholar" then StepResult.cont st
  else
    match out with
    | QueryOutcome.exn => StepResult.cont st
    | QueryOutcome.success raw parsed grounding =>
      let parsedResponse : JValue :=
        match q.structure' with
        | some _ => parsed.getD (JValue.jStr raw)
        | none => JValue.jStr raw
      let st' : DocState :=
        { st with
          queries := st.queries ++ [⟨i + 1, parsedResponse, grounding⟩],
          successful_queries := st.successful_queries + 1 }
      match q.filter_on with
      | some f =>
        match evaluate_filter parsedResponse f st' (i + 1) with
        | none => StepResult.exited
        | some (true, st'') => StepResult.cont st''
        | some (false, st'') => StepResult.stop st''
      | none => StepResult.cont st'

/-- Result of the whole query loop: the final document state, or the
process exited via `sys.exit(1)`. -/
inductive RunResult where
  | finished (st : DocState)
  | exited

/-- The query loop of `process_document`, starting at 0-based query
index `i`; each query is paired with the outcome its request had. -/
def run_queries (i : Nat) (l : List (QueryConfig × QueryOutcome)) (st : DocState) :
    RunResult :=
  match l with
  | [] => RunResult.finished st
  | (q, out) :: rest =>
    match step_query q out i st with
    | StepResult.cont st' => run_queries (i + 1) rest st'
    | StepResult.stop st' => RunResult.finished st'
    | StepResult.exited => RunResult.exited

/-- Embeds `process_document` after sourcing: run the loop from the initial
document state and pair the final state with the per-document success
flag `successful_queries > 0`; `none` when the process exited. -/
def process_document_queries (l : List (QueryConfig × QueryOutcome)) :
    Option (DocState × Bool) :=
  match run_queries 0 l initDocState with
  | RunResult.finished st => some (st, decide (0 < st.successful_queries))
  | RunResult.exited => none

/-- Runs a prefix of the query loop that continues throughout: the state
after it, or `none` if the loop stopped or exited inside the prefix. -/
def run_cont (i : Nat) (l : List (QueryConfig × QueryOutcome)) (st : DocState) :
    Option DocState :=
  match l with
  | [] => some st
  | (q, out) :: rest =>
    match step_query q out i st with
    | StepResult.cont st' => run_cont (i + 1) rest st'
    | _ => none

/-! ## Parameter inheritance (`config.py`, `ConfigManager.load_queries`)

The merging loop of `load_queries`, lines 294-314: each query block
declares a parameter dict `current_params`; the one-shot keys are split
off, the persistent rest is merged into the running `accumulated_params`
(current declarations override accumulated ones), and the block's
effective parameters are the accumulated dict updated with the block's
persistent and then its one-shot declarations. -/

/-- The one-shot parameter keys of `load_queries`. -/
def oneShotParams : List String := ["semantic_scholar", "filter_on", "relevance_search"]

/-- Python `d.update(u)` at the level of lookups: entries of `d` whose
key is overridden by `u` are replaced by the entries of `u`. -/
def dictUpdate (d u : ParamBag) : ParamBag :=
  (d.filter fun p => (List.lookup p.1 u).isNone) ++ u

/-- The persistent part of a block's declared parameters. -/
def persistentOf (cur : ParamBag) : ParamBag :=
  cur.filter fun p => !(oneShotParams.contains p.1)

/-- The one-shot part of a block's declared parameters. -/
def oneshotOf (cur : ParamBag) : ParamBag :=
  cur.filter fun p => oneShotParams.contains p.1

/-- The merging loop of `load_queries`: given the declared parameter
dicts of the query blocks in order, and the accumulated persistent
parameters so far, produce the effective (merged) parameter dict of
every block. -/
def mergeSections : List ParamBag → ParamBag → List ParamBag
  | [], _ => []
  | cur :: rest, acc =>
    dictUpdate (dictUpdate acc (persistentOf cur)) (oneshotOf cur)
      :: mergeSections rest (dictUpdate acc (persistentOf cur))

/-- Effective parameters of each query block, starting from an empty
accumulated dict (`accumulated_params = {}`). -/
def effectiveParams (sections : List ParamBag) : List ParamBag :=
  mergeSections sections []

/-- The accumulated persistent parameters after a list of blocks. -/
def accAfter (sections : List ParamBag) (acc : ParamBag) : ParamBag :=
  match sections with
  | [] => acc
  | cur :: rest => accAfter rest (dictUpdate acc (persistentOf cur))

/-! ## PDF acquisition (`pdf_search.py`, `PDFSearcher._download_pdf`) -/

/-- Whether `sub` occurs inside `hay` (Python `sub in hay`), on the
character lists. -/
def isInfixList (n : List Char) : List Char → Bool
  | [] => n.isEmpty
  | c :: t => List.isPrefixOf n (c :: t) || isInfixList n t

/-- Whether `sub` occurs inside `hay` (Python `sub in hay`). -/
def strContains (hay sub : String) : Bool :=
  isInfixList sub.toList hay.toList

/-- Python `s.lower()`, character by character. -/
def strToLower (s : String) : String :=
  String.mk (s.toList.map Char.toLower)

/-- Python `s.endswith(suffix)`. -/
def strEndsWith (s suffix : String) : Bool :=
  List.isSuffixOf suffix.toList s.toList

/-- Python `\w` over ASCII: letters, digits and underscore. -/
def isWordChar (c : Char) : Bool := c.isAlphanum || c == '_'

/-- Python `\s` over ASCII: space, tab, newline, carriage return,
form feed, vertical tab. -/
def isSpaceChar (c : Char) : Bool :=
  c == ' ' || c == '\t' || c == '\n' || c == '\r' || c == '\x0b' || c == '\x0c'

/-- A character kept by `re.sub(r"[^\w\s\-]", "", title)`. -/
def keepChar (c : Char) : Bool := isWordChar c || isSpaceChar c || c == '-'

/-- Python `re.sub(r"\s+", "_", s)`: replace every maximal run of whitespace by
a single underscore; the flag records whether we are inside a run. -/
def collapseWsAux : Bool → List Char → List Char
  | _, [] => []
  | inRun, c :: rest =>
    if isSpaceChar c then
      if inRun then collapseWsAux true rest
      else '_' :: collapseWsAux true rest
    else c :: collapseWsAux false rest

/-- Python `s.strip("_")`: drop leading and trailing underscores. -/
def stripUnderscores (l : List Char) : List Char :=
  ((l.dropWhile fun c => c == '_').reverse.dropWhile fun c => c == '_').reverse

/-- The safe filename stem derived from the title in `_download_pdf`:
strip disallowed characters, truncate to 50 characters, collapse
whitespace to underscores, strip underscores, and fall back to
`downloaded_paper` when empty. -/
def safeTitle (title : String) : String :=
  let kept := (title.toList.filter keepChar).take 50
  let collapsed := stripUnderscores (collapseWsAux false kept)
  if collapsed.isEmpty then "downloaded_paper" else String.mk collapsed

/-- The deterministic target path of `_download_pdf`:
`os.path.join(tempfile.gettempdir(), f"ask_llm_{safe_title}_{hash(url) % 10000}.pdf")`.
`pyHash` is the process string-hash function (fixed within a run),
`tmp` the temporary directory. -/
def pdfPath (pyHash : String → Nat) (tmp url title : String) : String :=
  tmp ++ "/" ++ "ask_llm_" ++ safeTitle title ++ "_" ++ toString (pyHash url % 10000) ++ ".pdf"

/-- The 50 MB download ceiling of `_download_pdf`. -/
def maxDownloadSize : Nat := 50 * 1024 * 1024

/-- The PDF magic header bytes, `b"%PDF-"`. -/
def pdfMagic : List Nat := [0x25, 0x50, 0x44, 0x46, 0x2D]

/-- The streaming write loop of `_download_pdf`: empty chunks are
skipped; a chunk pushing the running size over the ceiling aborts
(`none`); otherwise all bytes are written in order. -/
def recvChunks : List (List Nat) → Nat → List Nat → Option (List Nat)
  | [], _, acc => some acc
  | c :: rest, size, acc =>
    if c.isEmpty then recvChunks rest size acc
    else if maxDownloadSize < size + c.length then none
    else recvChunks rest (size + c.length) (acc ++ c)

/-- The bytes `_download_pdf` ends up writing for a chunk stream, or
`none` when the size ceiling is hit. -/
def dlBytes (chunks : List (List Nat)) : Option (List Nat) :=
  recvChunks chunks 0 []

/-- The environment one call to `_download_pdf` runs against.
`targetExists` records whether the target file already exists before the
call (the source never consults it); `getOk` whether `session.get` and
`raise_for_status` succeed; `contentType` the response content-type
header; `chunks` the streamed response body. -/
structure DownloadEnv where
  targetExists : Bool
  getOk : Bool
  contentType : String
  chunks : List (List Nat)

/-- An external effect of `_download_pdf`. -/
inductive DlEffect where
  | httpGet (url : String)
  | writeFile (path : String)
  | removeFile (path : String)
deriving DecidableEq

/-- Embeds `PDFSearcher._download_pdf`: compute the target path, issue
`session.get(url)`, reject non-PDF content types unless the URL ends in
`.pdf`, stream the body under the size ceiling (removing the partial
file when exceeded), verify the magic header (removing the file when it
fails), and return the local path on success.  Returns the result and
the trace of external effects. -/
def download_pdf (pyHash : String → Nat) (tmp url title : String) (env : DownloadEnv) :
    Option String × List DlEffect :=
  let path := pdfPath pyHash tmp url title
  if !env.getOk then (none, [DlEffect.httpGet url])
  else if !(strContains (strToLower env.contentType) "pdf")
       && !(strEndsWith (strToLower url) ".pdf") then
    (none, [DlEffect.httpGet url])
  else
    match dlBytes env.chunks with
    | none =>
      (none, [DlEffect.httpGet url, DlEffect.writeFile path, DlEffect.removeFile path])
    | some bytes =>
      if bytes.take 5 = pdfMagic then
        (some path, [DlEffect.httpGet url, DlEffect.writeFile path])
      else
        (none, [DlEffect.httpGet url, DlEffect.writeFile path, DlEffect.removeFile path])

/-- Whether a file at path `p`, absent before the call, is present after
the effect trace `tr` has run. -/
def leavesFile (tr : List DlEffect) (p : String) : Bool :=
  tr.foldl
    (fun present e =>
      match e with
      | DlEffect.writeFile q => if q == p then true else present
      | DlEffect.removeFile q => if q == p then false else present
      | DlEffect.httpGet _ => present)
    false

/-! ## Temporary-file cleanup (`pdf_search.py`, `PDFSearcher.cleanup_temp_files`) -/

/-- Python `os.path.basename`: everything after the last slash. -/
def basename (p : String) : String :=
  String.mk ((p.toList.reverse.takeWhile fun c => !(c == '/')).reverse)

/-- Embeds `PDFSearcher.cleanup_temp_files`: in URL-only mode nothing is
removed; otherwise removal is attempted exactly for the listed paths
that are non-empty, exist, contain the temporary directory string, and
whose basename contains `ask_llm_`.  Returns the list of paths whose
removal is attempted.  `fsExists` is the file-existence oracle, `tmp`
the value of `tempfile.gettempdir()`. -/
def cleanup_temp_files (downloadPdfs : Bool) (tmp : String) (fsExists : String → Bool)
    (paths : List String) : List String :=
  if !downloadPdfs then []
  else
    paths.filter fun p =>
      !(p == "") && fsExists p && strContains p tmp
        && strContains (basename p) "ask_llm_"

/-! ## Candidate verification (`pdf_finder.py`, `PDFFinder._verify_pdf_match`) -/

/-- The environment of one `_verify_pdf_match` call: no API client is
configured, or some step raised (reading the file, the verification
request, extracting or JSON-parsing the response), or a parsed JSON
object was obtained with the given optional `matches` and `confidence`
fields. -/
inductive VerifyOutcome where
  | noClient
  | exn
  | parsed (matchesField : Option Bool) (confidence : Option ℚ)

/-- Embeds `PDFFinder._verify_pdf_match`: accept when no client is available or
when anything raises; otherwise accept exactly when
`result.get("matches", False)` holds and
`result.get("confidence", 0.0) >= 0.7`. -/
def verify_pdf_match : VerifyOutcome → Bool
  | VerifyOutcome.noClient => true
  | VerifyOutcome.exn => true
  | VerifyOutcome.parsed m c => m.getD false && decide ((7 : ℚ) / 10 ≤ c.getD 0)

/-! ## Fallback search strategy

`cli.py` imports `FallbackSearchStrategy` from `search_strategy.py`, but
the class is not defined in the source tree; only its callers are.  It
is therefore modelled from the specification. -/

/-- Which concrete strategy a fallback-chained search invoked. -/
inductive StratCall where
  | grounded
  | direct
deriving DecidableEq

/-- Modelled from the spec: `FallbackSearchStrategy.discover_urls_with_source`
(imported by `cli.py` `fulltext` but missing from the source tree) tries
the grounded strategy first and invokes the direct strategy only if the
grounded strategy returns nothing.  Returns the result and the ordered
trace of strategy invocations. -/
def fallback_discover {α β : Type} (grounded direct : α → Option β) (md : α) :
    Option β × List StratCall :=
  match grounded md with
  | some r => (some r, [StratCall.grounded])
  | none => (direct md, [StratCall.grounded, StratCall.direct])

/-! ## Resume ledger

`cli.py` calls `self.load_state(...)` and the checkpoint machinery on
the analyzer, and the spec describes a processed-files ledger used to
skip re-processing on resume; neither `load_state` nor the skip check is
present in the source tree.  Both are modelled from the specification. -/

/-- A network call attributable to the processing of one bibtex key. -/
inductive NetCall where
  | llmRequest (key : String)
  | searchRequest (key : String)
  | download (key : String)
deriving DecidableEq

/-- Modelled from the spec: the part of `RunState` rehydrated from a
checkpoint that resuming consults, namely the processed-files ledger of
already-processed identifiers. -/
structure RunState where
  processedKeys : List String

/-- Modelled from the spec: on resume, a document whose bibtex key is in
the processed ledger is skipped without any work; otherwise it is
processed by the per-document pipeline `processDoc`, which returns its
network-call trace and success flag. -/
def process_with_resume (st : RunState) (processDoc : String → List NetCall × Bool)
    (key : String) : List NetCall × Bool :=
  if st.processedKeys.contains key then ([], false)
  else processDoc key

/-- Modelled from the spec: the resumed run over a document list; its
network-call trace is the concatenation of the per-document traces. -/
def run_resumed (st : RunState) (processDoc : String → List NetCall × Bool)
    (keys : List String) : List NetCall :=
  (keys.map fun k => (process_with_resume st processDoc k).1).flatten

/-! ## Lemmas about the query loop -/

/-- Filter evaluation never touches the recorded query results or the
success counter; it only sets the filtering fields. -/
theorem evaluate_filter_state (response : JValue) (f : String) (st : DocState)
    (qid : Nat) (b : Bool) (st' : DocState)
    (h : evaluate_filter response f st qid = some (b, st')) :
    st'.queries = st.queries ∧ st'.successful_queries = st.successful_queries := by
  unfold evaluate_filter at h
  split at h
  · split at h
    · split at h
      · injection h with h
        injection h with h1 h2
        rw [← h2]
        exact ⟨rfl, rfl⟩
      · injection h with h
        injection h with h1 h2
        rw [← h2]
        exact ⟨rfl, rfl⟩
    · cases h
  · injection h with h
    injection h with h1 h2
    rw [← h2]
    exact ⟨rfl, rfl⟩

/-- A step of the loop that continues or stops either leaves the record
unchanged, or appends exactly one result for the current query (id
`i + 1`) and bumps the success counter. -/
theorem step_query_shape (q : QueryConfig) (out : QueryOutcome) (i : Nat)
    (st st' : DocState)
    (h : step_query q out i st = StepResult.cont st'
        ∨ step_query q out i st = StepResult.stop st') :
    (st'.queries = st.queries ∧ st'.successful_queries = st.successful_queries)
    ∨ ∃ resp gm, st'.queries = st.queries ++ [QueryResult.mk (i + 1) resp gm]
        ∧ st'.successful_queries = st.successful_queries + 1 := by
  simp only [step_query] at h
  split at h
  · rcases h with h | h
    · injection h with h
      rw [← h]
      exact Or.inl ⟨rfl, rfl⟩
    · cases h
  · split at h
    · rcases h with h | h
      · injection h with h
        rw [← h]
        exact Or.inl ⟨rfl, rfl⟩
      · cases h
    · split at h
      · split at h
        · rcases h with h | h <;> cases h
        · rename_i hev
          rcases h with h | h
          · injection h with h
            rw [← h]
            exact Or.inr ⟨_, _, (evaluate_filter_state _ _ _ _ _ _ hev).1,
              (evaluate_filter_state _ _ _ _ _ _ hev).2⟩
          · cases h
        · rename_i hev
          rcases h with h | h
          · cases h
          · injection h with h
            rw [← h]
            exact Or.inr ⟨_, _, (evaluate_filter_state _ _ _ _ _ _ hev).1,
              (evaluate_filter_state _ _ _ _ _ _ hev).2⟩
      · rcases h with h | h
        · injection h with h
          rw [← h]
          exact Or.inr ⟨_, _, rfl, rfl⟩
        · cases h

/-- Recorded query ids stay bounded by the loop index across a
continuing step. -/
theorem step_query_ids_of_shape {q : QueryConfig} {out : QueryOutcome} {i : Nat}
    {st st' : DocState} (h : step_query q out i st = StepResult.cont st')
    (hb : ∀ r ∈ st.queries, r.query_id ≤ i) :
    ∀ r ∈ st'.queries, r.query_id ≤ i + 1 := by
  rcases step_query_shape q out i st st' (Or.inl h) with ⟨hq, _⟩ | ⟨resp, gm, hq, _⟩
  · intro r hr
    rw [hq] at hr
    exact Nat.le_succ_of_le (hb r hr)
  · intro r hr
    rw [hq] at hr
    rcases List.mem_append.mp hr with hr' | hr'
    · exact Nat.le_succ_of_le (hb r hr')
    · have : r = QueryResult.mk (i + 1) resp gm := by simpa using hr'
      rw [this]

/-- The success counter equals the number of recorded results, across
any continuing or stopping step. -/
theorem step_query_succ_len {q : QueryConfig} {out : QueryOutcome} {i : Nat}
    {st st' : DocState}
    (h : step_query q out i st = StepResult.cont st'
        ∨ step_query q out i st = StepResult.stop st')
    (hb : st.successful_queries = st.queries.length) :
    st'.successful_queries = st'.queries.length := by
  rcases step_query_shape q out i st st' h with ⟨hq, hs⟩ | ⟨resp, gm, hq, hs⟩
  · rw [hq, hs]
    exact hb
  · rw [hq, hs, hb]
    simp

/-- Splitting the loop at a prefix that continues throughout. -/
theorem run_queries_append (l1 : List (QueryConfig × QueryOutcome)) :
    ∀ (i : Nat) (l2 : List (QueryConfig × QueryOutcome)) (st st' : DocState),
    run_cont i l1 st = some st' →
    run_queries i (l1 ++ l2) st = run_queries (i + l1.length) l2 st' := by
  induction l1 with
  | nil =>
    intro i l2 st st' h
    injection h with h
    rw [h]
    rfl
  | cons hd t ih =>
    intro i l2 st st' h
    obtain ⟨q, out⟩ := hd
    rw [List.cons_append]
    simp only [run_cont] at h
    rw [run_queries]
    cases hstep : step_query q out i st with
    | cont s =>
      rw [hstep] at h
      have heq := ih (i + 1) l2 s st' h
      show run_queries (i + 1) (t ++ l2) s = run_queries (i + ((q, out) :: t).length) l2 st'
      rw [heq]
      have harith : i + 1 + t.length = i + ((q, out) :: t).length := by
        simp only [List.length_cons]
        omega
      rw [harith]
    | stop s => rw [hstep] at h; cases h
    | exited => rw [hstep] at h; cases h

/-- Along a continuing prefix starting at index `i`, every recorded
query id stays at most the current index. -/
theorem run_cont_ids (l : List (QueryConfig × QueryOutcome)) :
    ∀ (i : Nat) (st st' : DocState),
    run_cont i l st = some st' →
    (∀ r ∈ st.queries, r.query_id ≤ i) →
    ∀ r ∈ st'.queries, r.query_id ≤ i + l.length := by
  induction l with
  | nil =>
    intro i st st' h hb
    injection h with h
    rw [← h]
    simpa using hb
  | cons hd t ih =>
    intro i st st' h hb
    obtain ⟨q, out⟩ := hd
    simp only [run_cont] at h
    cases hstep : step_query q out i st with
    | cont s =>
      rw [hstep] at h
      have hbs : ∀ r ∈ s.queries, r.query_id ≤ i + 1 :=
        step_query_ids_of_shape hstep hb
      have hall := ih (i + 1) s st' h hbs
      intro r hr
      have h2 := hall r hr
      simp only [List.length_cons]
      omega
    | stop s => rw [hstep] at h; cases h
    | exited => rw [hstep] at h; cases h

/-- Whenever the loop finishes, the success counter equals the number
of recorded query results (each success appends exactly one entry). -/
theorem run_queries_succ_len (l : List (QueryConfig × QueryOutcome)) :
    ∀ (i : Nat) (st st' : DocState),
    run_queries i l st = RunResult.finished st' →
    st.successful_queries = st.queries.length →
    st'.successful_queries = st'.queries.length := by
  induction l with
  | nil =>
    intro i st st' h hb
    injection h with h
    rw [← h]
    exact hb
  | cons hd t ih =>
    intro i st st' h hb
    obtain ⟨q, out⟩ := hd
    rw [run_queries] at h
    cases hstep : step_query q out i st with
    | cont s =>
      rw [hstep] at h
      exact ih (i + 1) s st' h (step_query_succ_len (Or.inl hstep) hb)
    | stop s =>
      rw [hstep] at h
      injection h with h
      rw [← h]
      exact step_query_succ_len (Or.inr hstep) hb
    | exited => rw [hstep] at h; cases h

/-! ## Claim theorems: the query loop -/

/-- C1: for every document and query sequence, when a query declaring
`filter_on` is reached (after a prefix of the loop that continued
throughout) and its structured response carries the boolean `false` in
the filter field, the resulting document record has
`is_filtered_out = true`, `filtered_at_query` equal to that query's
(1-based) index, and its `queries` list has no entry for any query
after that index: the loop stops immediately, never touching the
remaining queries. -/
theorem c1_filter_false_stops_processing
    (pre rest : List (QueryConfig × QueryOutcome)) (q : QueryConfig)
    (raw : String) (grounding : Option JValue) (sj : JValue)
    (fields : List (String × JValue)) (f : String) (st : DocState)
    (hpre : run_cont 0 pre initDocState = some st)
    (hss : paramTruthy q.params "semantic_scholar" = false)
    (hstruct : q.structure' = some sj)
    (hfilter : q.filter_on = some f)
    (hfield : List.lookup f fields = some (JValue.jBool false)) :
    ∃ st',
      run_queries 0
          (pre ++ (q, QueryOutcome.success raw (some (JValue.jObj fields)) grounding) :: rest)
          initDocState
        = RunResult.finished st'
      ∧ st'.is_filtered_out = true
      ∧ st'.filtered_at_query = some (pre.length + 1)
      ∧ ∀ r ∈ st'.queries, r.query_id ≤ pre.length + 1 := by
  have hb0 : ∀ r ∈ initDocState.queries, r.query_id ≤ 0 := by
    intro r hr
    simp [initDocState] at hr
  have hb : ∀ r ∈ st.queries, r.query_id ≤ pre.length := by
    have h2 := run_cont_ids pre 0 initDocState st hpre hb0
    simpa using h2
  have happ := run_queries_append pre 0
    ((q, QueryOutcome.success raw (some (JValue.jObj fields)) grounding) :: rest)
    initDocState st hpre
  rw [Nat.zero_add] at happ
  refine ⟨{ st with
      queries := st.queries ++ [⟨pre.length + 1, JValue.jObj fields, grounding⟩],
      successful_queries := st.successful_queries + 1,
      is_filtered_out := true,
      filtered_at_query := some (pre.length + 1),
      filter_reason := some ("Filter field " ++ f ++ " evaluated to False") },
    ?_, rfl, rfl, ?_⟩
  · rw [happ, run_queries]
    have hstep : step_query q
        (QueryOutcome.success raw (some (JValue.jObj fields)) grounding) pre.length st
        = StepResult.stop { st with
            queries := st.queries ++ [⟨pre.length + 1, JValue.jObj fields, grounding⟩],
            successful_queries := st.successful_queries + 1,
            is_filtered_out := true,
            filtered_at_query := some (pre.length + 1),
            filter_reason := some ("Filter field " ++ f ++ " evaluated to False") } := by
      simp [step_query, hss, hstruct, hfilter, evaluate_filter, hfield]
    rw [hstep]
  · intro r hr
    simp only [List.mem_append] at hr
    rcases hr with hr | hr
    · exact Nat.le_succ_of_le (hb r hr)
    · have : r = QueryResult.mk (pre.length + 1) (JValue.jObj fields) grounding := by
        simpa using hr
      rw [this]

/-- Witness for C1: a concrete one-query run whose structured response
sets the filter field to false. -/
theorem c1_witness :
    List.lookup "relevant" [("relevant", JValue.jBool false)] = some (JValue.jBool false)
    ∧ ∃ st',
      run_queries 0
          ([] ++
            (({ text := "q", params := [], structure' := some (JValue.jObj []), filter_on := some "relevant" } : QueryConfig),
            QueryOutcome.success "resp"
              (some (JValue.jObj [("relevant", JValue.jBool false)])) none) :: [])
          initDocState
        = RunResult.finished st'
      ∧ st'.is_filtered_out = true
      ∧ st'.filtered_at_query = some 1
      ∧ ∀ r ∈ st'.queries, r.query_id ≤ 1 :=
  ⟨rfl,
    c1_filter_false_stops_processing [] [] _ "resp" none (JValue.jObj [])
      [("relevant", JValue.jBool false)] "relevant" initDocState rfl rfl rfl rfl rfl⟩

/-- C2: a request-level exception during one query leaves the document
state unchanged and the loop continues with the next query; when the
loop finishes, the per-document success flag is true exactly when at
least one query succeeded, the success counter being the number of
recorded query results. -/
theorem c2_exception_caught_success_flag :
    (∀ (i : Nat) (q : QueryConfig) (rest : List (QueryConfig × QueryOutcome)) (st : DocState),
        run_queries i ((q, QueryOutcome.exn) :: rest) st = run_queries (i + 1) rest st)
    ∧ ∀ (l : List (QueryConfig × QueryOutcome)) (st : DocState) (flag : Bool),
        process_document_queries l = some (st, flag) →
        ((flag = true ↔ 0 < st.successful_queries)
          ∧ st.successful_queries = st.queries.length) := by
  constructor
  · intro i q rest st
    rw [run_queries]
    have hstep : step_query q QueryOutcome.exn i st = StepResult.cont st := by
      unfold step_query
      split <;> rfl
    rw [hstep]
  · intro l st flag h
    unfold process_document_queries at h
    cases hr : run_queries 0 l initDocState with
    | finished st0 =>
      rw [hr] at h
      injection h with h
      injection h with h1 h2
      have hlen := run_queries_succ_len l 0 initDocState st0 hr rfl
      constructor
      · rw [← h1, ← h2]
        simp
      · rw [← h1]
        exact hlen
    | exited =>
      rw [hr] at h
      cases h

/-- Witness for C2: a concrete one-query run with a successful query. -/
theorem c2_witness :
    process_document_queries
        [({ text := "q", params := [], structure' := none, filter_on := none },
          QueryOutcome.success "ok" none none)]
      = some ({ queries := [⟨1, JValue.jStr "ok", none⟩], successful_queries := 1,
                is_filtered_out := false, filtered_at_query := none,
                filter_reason := none }, true)
    ∧ ((true = true ↔ 0 < (1 : Nat)) ∧ (1 : Nat) = 1) :=
  ⟨rfl, c2_exception_caught_success_flag.2
    [({ text := "q", params := [], structure' := none, filter_on := none },
      QueryOutcome.success "ok" none none)]
    { queries := [⟨1, JValue.jStr "ok", none⟩], successful_queries := 1,
      is_filtered_out := false, filtered_at_query := none, filter_reason := none }
    true rfl⟩

/-- C5 counterexample: a query declaring a filter field whose parsed
response carries no such field because it is not a structured object at
all (a bare string, as after a failed JSON parse).  The field is
missing, yet the run does not abort: the document is filtered out and
the loop finishes normally. -/
theorem c5_counterexample :
    jGetField (JValue.jStr "no json") "relevant" = none
    ∧ run_queries 0
        [({ text := "q", params := [], structure' := some (JValue.jObj []),
            filter_on := some "relevant" },
          QueryOutcome.success "no json" none none)] initDocState
        ≠ RunResult.exited
    ∧ ∃ st, run_queries 0
        [({ text := "q", params := [], structure' := some (JValue.jObj []),
            filter_on := some "relevant" },
          QueryOutcome.success "no json" none none)] initDocState
        = RunResult.finished st ∧ st.is_filtered_out = true := by
  have hrun : run_queries 0
      [({ text := "q", params := [], structure' := some (JValue.jObj []),
          filter_on := some "relevant" },
        QueryOutcome.success "no json" none none)] initDocState
      = RunResult.finished
          { queries := [⟨1, JValue.jStr "no json", none⟩], successful_queries := 1,
            is_filtered_out := true, filtered_at_query := some 1,
            filter_reason :=
              some ("No structured response for filter field " ++ "relevant") } := rfl
  refine ⟨rfl, ?_, ⟨_, hrun, rfl⟩⟩
  rw [hrun]
  intro h
  cases h

/-- C5 (amended): when the reached query declares a filter field and the
parsed response is a structured object in which that field is missing
or non-boolean, the whole run exits immediately via `sys.exit(1)` (not
merely the current document); a parsed response that is not a
structured object instead filters the document out. -/
theorem c5_amended_missing_or_nonbool_aborts_run
    (pre rest : List (QueryConfig × QueryOutcome)) (q : QueryConfig)
    (raw : String) (grounding : Option JValue) (sj : JValue)
    (fields : List (String × JValue)) (f : String) (st : DocState)
    (hpre : run_cont 0 pre initDocState = some st)
    (hss : paramTruthy q.params "semantic_scholar" = false)
    (hstruct : q.structure' = some sj)
    (hfilter : q.filter_on = some f)
    (hfield : ∀ b, List.lookup f fields ≠ some (JValue.jBool b)) :
    run_queries 0
        (pre ++ (q, QueryOutcome.success raw (some (JValue.jObj fields)) grounding) :: rest)
        initDocState
      = RunResult.exited := by
  have happ := run_queries_append pre 0
    ((q, QueryOutcome.success raw (some (JValue.jObj fields)) grounding) :: rest)
    initDocState st hpre
  rw [Nat.zero_add] at happ
  rw [happ, run_queries]
  have hev : evaluate_filter (JValue.jObj fields) f
      { st with
        queries := st.queries ++ [⟨pre.length + 1, JValue.jObj fields, grounding⟩],
        successful_queries := st.successful_queries + 1 } (pre.length + 1) = none := by
    cases hl : List.lookup f fields with
    | none => simp [evaluate_filter, hl]
    | some v =>
      cases v
      case jBool b => exact absurd hl (hfield b)
      all_goals simp [evaluate_filter, hl]
  have hstep : step_query q
      (QueryOutcome.success raw (some (JValue.jObj fields)) grounding) pre.length st
      = StepResult.exited := by
    simp [step_query, hss, hstruct, hfilter, hev]
  rw [hstep]

/-- Witness for the amended C5: a structured response with no fields at
all makes the run exit. -/
theorem c5_witness :
    (∀ b, List.lookup "relevant" ([] : List (String × JValue)) ≠ some (JValue.jBool b))
    ∧ run_queries 0
        ([] ++
          (({ text := "q", params := [], structure' := some (JValue.jObj []), filter_on := some "relevant" } : QueryConfig),
          QueryOutcome.success "resp" (some (JValue.jObj [])) none) :: [])
        initDocState
      = RunResult.exited :=
  ⟨fun _ h => Option.noConfusion h,
    c5_amended_missing_or_nonbool_aborts_run [] [] _ "resp" none (JValue.jObj [])
      [] "relevant" initDocState rfl rfl rfl rfl (fun _ h => Option.noConfusion h)⟩

/-! ## Lemmas about parameter inheritance -/

/-- Lookup in an appended bag: the left part wins. -/
theorem lookup_append_pv (k : String) (l1 l2 : ParamBag) :
    List.lookup k (l1 ++ l2)
      = match List.lookup k l1 with
        | some v => some v
        | none => List.lookup k l2 := by
  induction l1 with
  | nil => simp
  | cons hd t ih =>
    obtain ⟨k', v⟩ := hd
    cases hk : k == k'
    · simp [List.lookup_cons, hk, ih]
    · simp [List.lookup_cons, hk]

/-- Lookup commutes with filtering by a predicate on keys. -/
theorem lookup_filter_key (pr : String → Bool) (k : String) (l : ParamBag) :
    List.lookup k (l.filter fun p => pr p.1)
      = if pr k then List.lookup k l else none := by
  induction l with
  | nil => simp
  | cons hd t ih =>
    obtain ⟨k', v⟩ := hd
    cases hk : k == k'
    · cases hpr : pr k' <;>
        simp [List.filter_cons, hpr, List.lookup_cons, hk, ih]
    · have hkk : k = k' := eq_of_beq hk
      subst hkk
      cases hpr : pr k <;>
        simp [List.filter_cons, hpr, List.lookup_cons, ih]

/-- Lookup after a Python dict update: the update wins. -/
theorem lookup_dictUpdate (k : String) (d u : ParamBag) :
    List.lookup k (dictUpdate d u)
      = match List.lookup k u with
        | some v => some v
        | none => List.lookup k d := by
  unfold dictUpdate
  rw [lookup_append_pv, lookup_filter_key (fun x => (List.lookup x u).isNone) k d]
  cases hu : List.lookup k u with
  | none => cases hd : List.lookup k d <;> simp [hu, hd]
  | some w => simp [hu]

/-- For a key that is not one-shot, the persistent part of a block
declares exactly what the block declares. -/
theorem lookup_persistentOf (k : String) (cur : ParamBag)
    (h : oneShotParams.contains k = false) :
    List.lookup k (persistentOf cur) = List.lookup k cur := by
  unfold persistentOf
  rw [lookup_filter_key (fun x => !(oneShotParams.contains x)) k cur, h]
  rfl

/-- One-shot keys never make it into the persistent part. -/
theorem lookup_persistentOf_oneshot (k : String) (cur : ParamBag)
    (h : oneShotParams.contains k = true) :
    List.lookup k (persistentOf cur) = none := by
  unfold persistentOf
  rw [lookup_filter_key (fun x => !(oneShotParams.contains x)) k cur, h]
  rfl

/-- For a one-shot key, the one-shot part of a block declares exactly
what the block declares. -/
theorem lookup_oneshotOf (k : String) (cur : ParamBag)
    (h : oneShotParams.contains k = true) :
    List.lookup k (oneshotOf cur) = List.lookup k cur := by
  unfold oneshotOf
  rw [lookup_filter_key (fun x => oneShotParams.contains x) k cur, h]
  rfl

/-- Keys that are not one-shot never make it into the one-shot part. -/
theorem lookup_oneshotOf_not (k : String) (cur : ParamBag)
    (h : oneShotParams.contains k = false) :
    List.lookup k (oneshotOf cur) = none := by
  unfold oneshotOf
  rw [lookup_filter_key (fun x => oneShotParams.contains x) k cur, h]
  rfl

/-- A one-shot key absent from the accumulated parameters stays absent
no matter how many blocks accumulate. -/
theorem lookup_accAfter_oneshot (k : String) (h : oneShotParams.contains k = true)
    (sections : List ParamBag) :
    ∀ (acc : ParamBag), List.lookup k acc = none →
    List.lookup k (accAfter sections acc) = none := by
  induction sections with
  | nil => intro acc hacc; exact hacc
  | cons cur rest ih =>
    intro acc hacc
    show List.lookup k (accAfter rest (dictUpdate acc (persistentOf cur))) = none
    apply ih
    rw [lookup_dictUpdate, lookup_persistentOf_oneshot k cur h]
    exact hacc

/-- A non-one-shot key not declared by any of the accumulated blocks
keeps its accumulated value. -/
theorem lookup_accAfter_carries (k : String) (h : oneShotParams.contains k = false)
    (sections : List ParamBag) :
    ∀ (acc : ParamBag), (∀ s ∈ sections, List.lookup k s = none) →
    List.lookup k (accAfter sections acc) = List.lookup k acc := by
  induction sections with
  | nil => intro acc _; rfl
  | cons cur rest ih =>
    intro acc hdecl
    show List.lookup k (accAfter rest (dictUpdate acc (persistentOf cur)))
        = List.lookup k acc
    rw [ih (dictUpdate acc (persistentOf cur))
      (fun s hs => hdecl s (List.mem_cons_of_mem cur hs))]
    rw [lookup_dictUpdate, lookup_persistentOf k cur h,
      hdecl cur (List.mem_cons_self cur rest)]

/-- The merging loop splits over appended block lists. -/
theorem mergeSections_append (l1 : List ParamBag) :
    ∀ (l2 : List ParamBag) (acc : ParamBag),
    mergeSections (l1 ++ l2) acc
      = mergeSections l1 acc ++ mergeSections l2 (accAfter l1 acc) := by
  induction l1 with
  | nil => intro l2 acc; rfl
  | cons cur rest ih =>
    intro l2 acc
    show mergeSections (cur :: (rest ++ l2)) acc = _
    rw [mergeSections, ih l2 (dictUpdate acc (persistentOf cur))]
    rfl

/-- The merging loop produces one effective bag per block. -/
theorem mergeSections_length (l : List ParamBag) :
    ∀ (acc : ParamBag), (mergeSections l acc).length = l.length := by
  induction l with
  | nil => intro acc; rfl
  | cons cur rest ih =>
    intro acc
    show (mergeSections (cur :: rest) acc).length = rest.length + 1
    rw [mergeSections]
    simp [ih]

/-- The effective parameter bag at the position of `cj` in the block
list `before ++ ci :: (mid ++ cj :: after)`. -/
theorem effectiveParams_at (before mid after : List ParamBag) (ci cj : ParamBag) :
    (effectiveParams (before ++ ci :: (mid ++ cj :: after)))[before.length + 1 + mid.length]?
      = some (dictUpdate (dictUpdate
            (accAfter mid (dictUpdate (accAfter before []) (persistentOf ci)))
            (persistentOf cj)) (oneshotOf cj)) := by
  unfold effectiveParams
  rw [mergeSections_append before (ci :: (mid ++ cj :: after)) []]
  rw [List.getElem?_append_right (by rw [mergeSections_length]; omega)]
  rw [mergeSections_length]
  have h1 : before.length + 1 + mid.length - before.length = mid.length + 1 := by omega
  rw [h1, mergeSections, List.getElem?_cons_succ]
  rw [mergeSections_append mid (cj :: after) (dictUpdate (accAfter before []) (persistentOf ci))]
  rw [List.getElem?_append_right (by rw [mergeSections_length])]
  rw [mergeSections_length, Nat.sub_self, mergeSections]
  exact List.getElem?_cons_zero

/-! ## Claim theorem: parameter inheritance -/

/-- C3: in the merged query parameters of `load_queries`, a parameter
with a non-one-shot key declared by block `ci` reappears in the
effective parameters of every later block `cj` unless some block after
`ci` up to and including `cj` redeclares the key; a one-shot key
(`filter_on`, `semantic_scholar`, `relevance_search`) declared by `ci`
never appears in the effective parameters of a later block `cj` that
does not itself declare it. -/
theorem c3_param_inheritance :
    (∀ (before mid after : List ParamBag) (ci cj : ParamBag) (k : String) (v : PVal),
      oneShotParams.contains k = false →
      List.lookup k ci = some v →
      (∀ s ∈ mid, List.lookup k s = none) →
      List.lookup k cj = none →
      ∃ eff,
        (effectiveParams (before ++ ci :: (mid ++ cj :: after)))[before.length + 1 + mid.length]? = some eff
        ∧ List.lookup k eff = some v)
    ∧ ∀ (before mid after : List ParamBag) (ci cj : ParamBag) (k : String) (v : PVal),
      oneShotParams.contains k = true →
      List.lookup k ci = some v →
      List.lookup k cj = none →
      ∃ eff,
        (effectiveParams (before ++ ci :: (mid ++ cj :: after)))[before.length + 1 + mid.length]? = some eff
        ∧ List.lookup k eff = none := by
  constructor
  · intro before mid after ci cj k v hk hci hmid hcj
    refine ⟨_, effectiveParams_at before mid after ci cj, ?_⟩
    rw [lookup_dictUpdate, lookup_oneshotOf_not k cj hk]
    rw [lookup_dictUpdate, lookup_persistentOf k cj hk, hcj]
    rw [lookup_accAfter_carries k hk mid _ hmid]
    rw [lookup_dictUpdate, lookup_persistentOf k ci hk, hci]
  · intro before mid after ci cj k v hk hci hcj
    refine ⟨_, effectiveParams_at before mid after ci cj, ?_⟩
    rw [lookup_dictUpdate, lookup_oneshotOf k cj hk, hcj]
    rw [lookup_dictUpdate, lookup_persistentOf_oneshot k cj hk]
    refine lookup_accAfter_oneshot k hk mid _ ?_
    rw [lookup_dictUpdate, lookup_persistentOf_oneshot k ci hk]
    show List.lookup k (accAfter before []) = none
    exact lookup_accAfter_oneshot k hk before [] rfl

/-- Witness for C3: `temperature` declared by the first block is
inherited by the second; `filter_on` declared by the first block is not
inherited by the second. -/
theorem c3_witness :
    (oneShotParams.contains "temperature" = false
      ∧ List.lookup "temperature" [("temperature", PVal.pNum (1 / 5))]
          = some (PVal.pNum (1 / 5))
      ∧ ∃ eff,
          (effectiveParams ([] ++ [("temperature", PVal.pNum (1 / 5)),
              ("filter_on", PVal.pStr "relevant")] :: ([] ++ [] :: [])))[1]?
            = some eff
          ∧ List.lookup "temperature" eff = some (PVal.pNum (1 / 5)))
    ∧ (oneShotParams.contains "filter_on" = true
      ∧ ∃ eff,
          (effectiveParams ([] ++ [("temperature", PVal.pNum (1 / 5)),
              ("filter_on", PVal.pStr "relevant")] :: ([] ++ [] :: [])))[1]?
            = some eff
          ∧ List.lookup "filter_on" eff = none) := by
  constructor
  · refine ⟨by decide, ?_, ?_⟩
    · rfl
    · exact c3_param_inheritance.1 [] [] []
        [("temperature", PVal.pNum (1 / 5)), ("filter_on", PVal.pStr "relevant")] []
        "temperature" (PVal.pNum (1 / 5)) (by decide) rfl
        (by intro s hs; cases hs) rfl
  · refine ⟨by decide, ?_⟩
    · exact (c3_param_inheritance.2 [] [] []
        [("temperature", PVal.pNum (1 / 5)), ("filter_on", PVal.pStr "relevant")] []
        "filter_on" (PVal.pStr "relevant") (by decide) rfl rfl).elim
        (fun eff h => ⟨eff, h.1, h.2⟩)

/-! ## Claim theorems: PDF acquisition -/

/-- C4 counterexample: with the target file already present on disk,
`_download_pdf` still issues the HTTP request; there is no
file-existence check that skips the network call. -/
theorem c4_counterexample :
    ({ targetExists := true, getOk := true, contentType := "application/pdf", chunks := [[37, 80, 68, 70, 45]] } : DownloadEnv).targetExists = true
    ∧ DlEffect.httpGet "http://host/paper.pdf"
        ∈ (download_pdf (fun _ => 0) "/tmp" "http://host/paper.pdf" "Title"
            { targetExists := true, getOk := true, contentType := "application/pdf", chunks := [[37, 80, 68, 70, 45]] }).2 := by
  refine ⟨rfl, ?_⟩
  decide

/-- C4 (amended): the derived target path is deterministic, a function
of the URL, the title and the process hash function only (every
successful call returns exactly `pdfPath`); but the function does not
skip fetching when the target file exists: every call, whatever the
environment, begins by issuing the HTTP request, deduplication of
actual network traffic being left to the HTTP response cache. -/
theorem c4_amended_deterministic_path_get_always_issued
    (pyHash : String → Nat) (tmp url title : String) (env : DownloadEnv) :
    (download_pdf pyHash tmp url title env).2.head? = some (DlEffect.httpGet url)
    ∧ ((download_pdf pyHash tmp url title env).1 = none
        ∨ (download_pdf pyHash tmp url title env).1 = some (pdfPath pyHash tmp url title)) := by
  unfold download_pdf
  split
  · exact ⟨rfl, Or.inl rfl⟩
  · split
    · exact ⟨rfl, Or.inl rfl⟩
    · split
      · exact ⟨rfl, Or.inl rfl⟩
      · split
        · exact ⟨rfl, Or.inr rfl⟩
        · exact ⟨rfl, Or.inl rfl⟩

/-- C6: a download whose bytes fail the `%PDF-` magic-header check
returns `none`, and the written file is removed again: no file is left
on disk for that download. -/
theorem c6_invalid_magic_removes_file (pyHash : String → Nat) (tmp url title : String)
    (env : DownloadEnv) (bytes : List Nat)
    (hget : env.getOk = true)
    (hct : (strContains (strToLower env.contentType) "pdf"
        || strEndsWith (strToLower url) ".pdf") = true)
    (hbytes : dlBytes env.chunks = some bytes)
    (hmagic : ¬(bytes.take 5 = pdfMagic)) :
    download_pdf pyHash tmp url title env
      = (none, [DlEffect.httpGet url, DlEffect.writeFile (pdfPath pyHash tmp url title),
          DlEffect.removeFile (pdfPath pyHash tmp url title)])
    ∧ leavesFile (download_pdf pyHash tmp url title env).2 (pdfPath pyHash tmp url title)
        = false := by
  have hcond : (!(strContains (strToLower env.contentType) "pdf")
      && !(strEndsWith (strToLower url) ".pdf")) = false := by
    rw [← Bool.not_or, hct]
    rfl
  have hres : download_pdf pyHash tmp url title env
      = (none, [DlEffect.httpGet url, DlEffect.writeFile (pdfPath pyHash tmp url title),
          DlEffect.removeFile (pdfPath pyHash tmp url title)]) := by
    unfold download_pdf
    rw [hget, hcond, hbytes]
    simp only [Bool.not_true, Bool.false_eq_true, if_false]
    rw [if_neg hmagic]
  refine ⟨hres, ?_⟩
  rw [hres]
  simp [leavesFile]

/-- Witness for C6: a concrete download of bytes `[1, 2, 3]` (no PDF
magic header) is rejected and removed. -/
theorem c6_witness :
    ({ targetExists := false, getOk := true, contentType := "application/pdf", chunks := [[1, 2, 3]] } : DownloadEnv).getOk = true
    ∧ (strContains (strToLower "application/pdf") "pdf"
        || strEndsWith (strToLower "http://h/x.pdf") ".pdf") = true
    ∧ dlBytes [[1, 2, 3]] = some [1, 2, 3]
    ∧ ¬(([1, 2, 3] : List Nat).take 5 = pdfMagic)
    ∧ (download_pdf (fun _ => 0) "/tmp" "http://h/x.pdf" "T"
          { targetExists := false, getOk := true, contentType := "application/pdf", chunks := [[1, 2, 3]] }
        = (none, [DlEffect.httpGet "http://h/x.pdf",
            DlEffect.writeFile (pdfPath (fun _ => 0) "/tmp" "http://h/x.pdf" "T"),
            DlEffect.removeFile (pdfPath (fun _ => 0) "/tmp" "http://h/x.pdf" "T")])
      ∧ leavesFile (download_pdf (fun _ => 0) "/tmp" "http://h/x.pdf" "T"
          { targetExists := false, getOk := true, contentType := "application/pdf", chunks := [[1, 2, 3]] }).2
          (pdfPath (fun _ => 0) "/tmp" "http://h/x.pdf" "T") = false) :=
  ⟨rfl, by decide, rfl, by decide,
    c6_invalid_magic_removes_file (fun _ => 0) "/tmp" "http://h/x.pdf" "T"
      { targetExists := false, getOk := true, contentType := "application/pdf", chunks := [[1, 2, 3]] }
      [1, 2, 3] rfl (by decide) rfl (by decide)⟩

/-! ## Claim theorem: fallback search strategy -/

/-- C7: the fallback-chaining strategy invokes the grounded strategy
first, invokes the direct strategy exactly when the grounded strategy
returned nothing, and returns the grounded result when there is one,
the direct result otherwise. -/
theorem c7_fallback_orders_strategies {α β : Type} (grounded direct : α → Option β)
    (md : α) :
    (fallback_discover grounded direct md).2.head? = some StratCall.grounded
    ∧ (StratCall.direct ∈ (fallback_discover grounded direct md).2 ↔ grounded md = none)
    ∧ (fallback_discover grounded direct md).1
        = match grounded md with
          | some r => some r
          | none => direct md := by
  cases h : grounded md with
  | some r => simp [fallback_discover, h]
  | none => simp [fallback_discover, h]

/-! ## Claim theorem: resume ledger -/

/-- C8: on resume, a bibtex key present in the processed-files ledger
is skipped outright, producing no work, and every network call of the
resumed run belongs to some key that is not in the ledger: no network
call is ever made for an already-processed key. -/
theorem c8_resume_skips_processed :
    (∀ (st : RunState) (processDoc : String → List NetCall × Bool) (key : String),
        key ∈ st.processedKeys → process_with_resume st processDoc key = ([], false))
    ∧ ∀ (st : RunState) (processDoc : String → List NetCall × Bool)
        (keys : List String) (c : NetCall),
        c ∈ run_resumed st processDoc keys →
        ∃ k, k ∈ keys ∧ ¬(k ∈ st.processedKeys) ∧ c ∈ (processDoc k).1 := by
  constructor
  · intro st processDoc key h
    unfold process_with_resume
    rw [if_pos (List.elem_iff.mpr h)]
  · intro st processDoc keys c hc
    unfold run_resumed at hc
    rw [List.mem_flatten] at hc
    obtain ⟨tr, htr, hctr⟩ := hc
    rw [List.mem_map] at htr
    obtain ⟨k, hk, rfl⟩ := htr
    by_cases hmem : k ∈ st.processedKeys
    · rw [show process_with_resume st processDoc k = ([], false) from by
        unfold process_with_resume; rw [if_pos (List.elem_iff.mpr hmem)]] at hctr
      cases hctr
    · refine ⟨k, hk, hmem, ?_⟩
      unfold process_with_resume at hctr
      rw [if_neg (fun hcont => hmem (List.elem_iff.mp hcont))] at hctr
      exact hctr

/-- Witness for C8: a checkpointed key is skipped with no network calls. -/
theorem c8_witness :
    "key1" ∈ (RunState.mk ["key1"]).processedKeys
    ∧ process_with_resume (RunState.mk ["key1"])
        (fun k => ([NetCall.llmRequest k], true)) "key1" = ([], false) :=
  ⟨by decide, c8_resume_skips_processed.1 (RunState.mk ["key1"])
    (fun k => ([NetCall.llmRequest k], true)) "key1" (by decide)⟩

/-! ## Claim theorem: candidate verification -/

/-- C9: `_verify_pdf_match` is fail-open: it accepts when no API client
is available and when the verification call or its parsing raises; a
candidate is rejected exactly when a parsed verification response has
its effective `matches` value false (absent fields default to false)
or its effective confidence below 0.7. -/
theorem c9_verification_fail_open :
    verify_pdf_match VerifyOutcome.noClient = true
    ∧ verify_pdf_match VerifyOutcome.exn = true
    ∧ ∀ (m : Option Bool) (c : Option ℚ),
        (verify_pdf_match (VerifyOutcome.parsed m c) = false
          ↔ (m.getD false = false ∨ c.getD 0 < 7 / 10)) := by
  refine ⟨rfl, rfl, ?_⟩
  intro m c
  cases hm : m.getD false <;>
    simp [verify_pdf_match, hm, decide_eq_false_iff_not, not_le]

/-! ## Claim theorems: temporary-file cleanup -/

/-- Lying within a directory, as the specification words it: the path
starts with the directory followed by a separator (or is the directory
itself).  This is the spec-side reading that C10 is checked against. -/
def specPathWithinDir (dir p : String) : Bool :=
  List.isPrefixOf (dir ++ "/").toList p.toList || p == dir

/-- C10 counterexample: a file outside the system temporary directory
whose path merely contains the temporary-directory string as a
substring is removed by `cleanup_temp_files`. -/
theorem c10_counterexample :
    "/home/u/tmp/ask_llm_x.pdf"
        ∈ cleanup_temp_files true "/tmp" (fun _ => true) ["/home/u/tmp/ask_llm_x.pdf"]
    ∧ specPathWithinDir "/tmp" "/home/u/tmp/ask_llm_x.pdf" = false := by
  refine ⟨?_, ?_⟩ <;> decide

/-- C10 (amended): removal is attempted exactly for the listed paths
that are non-empty, exist, contain the temporary-directory string as a
substring (not necessarily lying within that directory), and whose
basename contains `ask_llm_`; nothing else is touched, and in URL-only
mode (`download_pdfs = false`) nothing is removed at all. -/
theorem c10_amended_removal_characterization :
    (∀ (downloadPdfs : Bool) (tmp : String) (fsExists : String → Bool)
        (paths : List String) (p : String),
      p ∈ cleanup_temp_files downloadPdfs tmp fsExists paths
        ↔ (downloadPdfs = true ∧ p ∈ paths ∧ ¬(p = "") ∧ fsExists p = true
            ∧ strContains p tmp = true ∧ strContains (basename p) "ask_llm_" = true))
    ∧ ∀ (tmp : String) (fsExists : String → Bool) (paths : List String),
      cleanup_temp_files false tmp fsExists paths = [] := by
  constructor
  · intro downloadPdfs tmp fsExists paths p
    unfold cleanup_temp_files
    cases downloadPdfs
    · simp
    · simp only [Bool.not_true, Bool.false_eq_true, if_false, List.mem_filter]
      constructor
      · intro ⟨hmem, hpred⟩
        simp only [Bool.and_eq_true, Bool.not_eq_true', beq_eq_false_iff_ne] at hpred
        exact ⟨by trivial, hmem, hpred.1.1.1, hpred.1.1.2, hpred.1.2, hpred.2⟩
      · intro ⟨_, hmem, hne, hex, htmp, hbase⟩
        refine ⟨hmem, ?_⟩
        simp only [Bool.and_eq_true, Bool.not_eq_true', beq_eq_false_iff_ne]
        exact ⟨⟨⟨hne, hex⟩, htmp⟩, hbase⟩
  · intro tmp fsExists paths
    rfl

end AskLLM
